import Mathlib

/-!
Shallow embedding of the `bddcli` repository (src/bddcli/calls.py and
src/bddcli/runners.py): the Call / FirstCall / AlteredCall hierarchy with its
diff-based inheritance, the verify / conclude protocol, serialization via
`to_dict`, and the subprocess runner's command construction and response
capture.

Python field values (strings, lists, dicts, ...) are treated as elements of an
abstract type `V`; the two distinguished Python objects that the code tests
for identity against — `None` and the module-level `UNCHANGED` sentinel — are
modelled as extra constructors of `PyV V`, so that `value is UNCHANGED` and
`value is not None` become decidable equality tests against the corresponding
constructors.
-/

namespace Bddcli

/-- Modelled from the spec: the `Response` class lives in `src/bddcli/response.py`,
which is not part of the provided sources.  Per the spec it is an immutable
record of `exit_code`, `stdout`, `stderr` whose equality is structural (all
three fields equal). -/
structure Response where
  exit_code : Int
  stdout : String
  stderr : String
deriving DecidableEq, Repr

/-- Modelled from the spec: `CallVerifyError` lives in `src/bddcli/exceptions.py`,
not in the provided sources; per the spec it is a single undifferentiated
verification-failure error kind with no payload. -/
structure CallVerifyError where
deriving DecidableEq, Repr

/-- One Python value at a Call field position: `none` is Python `None`,
`unchangedSentinel` is the module-level `UNCHANGED` object
(src/bddcli/calls.py lines 145-149), and `val v` is any other value. -/
inductive PyV (V : Type) where
  | none
  | unchangedSentinel
  | val (v : V)
deriving DecidableEq, Repr

/-- The four overlay-managed fields of a Call. -/
inductive Field where
  | stdin
  | positionals
  | flags
  | extraEnviron
deriving DecidableEq, Repr

/-- The string key each field uses in the `diff` dict and in `to_dict`. -/
def Field.key : Field → String
  | .stdin => "stdin"
  | .positionals => "positionals"
  | .flags => "flags"
  | .extraEnviron => "extra_environ"

/-- An AlteredCall's overlay: a Python dict from field names to values,
as an association list (the code only ever uses the four field keys). -/
abbrev Diff (V : Type) := List (Field × PyV V)

/-- Python `d.get(k, default)` without the default: the first stored value for
the key, if present. -/
def dictGet {V : Type} [DecidableEq V] : Diff V → Field → Option (PyV V)
  | [], _ => Option.none
  | p :: d, k => if p.1 = k then some p.2 else dictGet d k

/-- Python `d[k] = v`: replace the value in place if the key is present,
otherwise append the new entry. -/
def dictSet {V : Type} [DecidableEq V] : Diff V → Field → PyV V → Diff V
  | [], k, v => [(k, v)]
  | p :: d, k, v => if p.1 = k then (k, v) :: d else p :: dictSet d k v

/-- Python `d.pop(k, None)`: remove the entry for the key if present, never
failing.  Keys are unique in every dict the code builds (they start empty and
grow only through `dictSet`), so removing every occurrence coincides with
Python's removal of the single entry. -/
def dictPop {V : Type} [DecidableEq V] : Diff V → Field → Diff V
  | [], _ => []
  | p :: d, k => if p.1 = k then dictPop d k else p :: dictPop d k

/-- Python `del d[k]`: `none` models the `KeyError` raised when the key is absent. -/
def dictDel {V : Type} [DecidableEq V] (d : Diff V) (k : Field) : Option (Diff V) :=
  if (dictGet d k).isSome then some (dictPop d k) else Option.none

/-- Embeds `AlteredCall.update_diff` (calls.py lines 178-183):
`if value is UNCHANGED: self.diff.pop(key, None); return` / `self.diff[key] = value`. -/
def update_diff {V : Type} [DecidableEq V] (d : Diff V) (k : Field) (v : PyV V) : Diff V :=
  if v = PyV.unchangedSentinel then dictPop d k else dictSet d k v

/-- The state of a `FirstCall` (calls.py lines 96-142): the base-class fields
`title`, `description`, `response` plus the four directly stored field slots. -/
structure FirstData (V : Type) where
  title : String
  description : PyV V
  response : Option Response
  stdin : PyV V
  positionals : PyV V
  flags : PyV V
  extra_environ : PyV V
deriving DecidableEq, Repr

/-- The state of an `AlteredCall` minus its base reference (calls.py lines 152-231). -/
structure AlteredData (V : Type) where
  title : String
  description : PyV V
  response : Option Response
  diff : Diff V
deriving DecidableEq, Repr

/-- A Call is either a `FirstCall` or an `AlteredCall` holding a base Call
(chains of AlteredCalls are the nested `altered` case). -/
inductive Call (V : Type) where
  | first (s : FirstData V)
  | altered (base : Call V) (s : AlteredData V)
deriving DecidableEq, Repr

namespace Call

variable {V : Type} [DecidableEq V]

/-- Field read of a `FirstCall` slot: the trivial property getters of calls.py
lines 112-142, indexed by field (the four getters are textually identical
modulo the slot name). -/
def FirstData.get (s : FirstData V) : Field → PyV V
  | .stdin => s.stdin
  | .positionals => s.positionals
  | .flags => s.flags
  | .extraEnviron => s.extra_environ

/-- Field write of a `FirstCall` slot (the trivial property setters). -/
def FirstData.set (s : FirstData V) : Field → PyV V → FirstData V
  | .stdin, v => { s with stdin := v }
  | .positionals, v => { s with positionals := v }
  | .flags, v => { s with flags := v }
  | .extraEnviron, v => { s with extra_environ := v }

/-- Property read.  For a `FirstCall` this is the stored slot; for an
`AlteredCall` it is `self.diff.get(key, self.base_call.<field>)`
(calls.py lines 185-187, 197-199, 209-211, 221-223). -/
def getField : Call V → Field → PyV V
  | .first s, f => FirstData.get s f
  | .altered base s, f => (dictGet s.diff f).getD (getField base f)

/-- Property write.  For a `FirstCall` this stores into the slot; for an
`AlteredCall` it is `self.update_diff(key, value)` (the four setters). -/
def setField : Call V → Field → PyV V → Call V
  | .first s, f, v => .first (FirstData.set s f v)
  | .altered base s, f, v => .altered base { s with diff := update_diff s.diff f v }

/-- Property delete.  A `FirstCall` property has no deleter, so `del` raises
(modelled as `none`); an `AlteredCall`'s deleter is `del self.diff[key]`
(calls.py lines 193-195, 205-207, 217-219, 229-231), which raises `KeyError`
when the key is absent. -/
def delField : Call V → Field → Option (Call V)
  | .first _, _ => Option.none
  | .altered base s, f => (dictDel s.diff f).map (fun d => .altered base { s with diff := d })

/-- The `response` attribute of either variant. -/
def response : Call V → Option Response
  | .first s => s.response
  | .altered _ s => s.response

/-- Assignment to the `response` attribute (as done by `Call.__init__` and
`Call.conclude`). -/
def setResponse : Call V → Option Response → Call V
  | .first s, r => .first { s with response := r }
  | .altered base s, r => .altered base { s with response := r }

/-- The `title` attribute of either variant. -/
def title : Call V → String
  | .first s => s.title
  | .altered _ s => s.title

/-- Embeds `FirstCall.__init__` (calls.py lines 103-110): stores title,
description and response via the base `Call.__init__`, then assigns each field
slot through its setter.  Argument order matches the source; every Python
default is `None`. -/
def mkFirstCall (titl : String) (positionals flags stdin extra_environ : PyV V)
    (description : PyV V) (response : Option Response) : Call V :=
  Call.first
    { title := titl, description := description, response := response
      stdin := stdin, positionals := positionals, flags := flags
      extra_environ := extra_environ }

/-- Embeds `AlteredCall.__init__` (calls.py lines 154-164): starts from an
empty diff, then assigns stdin, positionals, flags, extra_environ in that
order through the setters, i.e. through `update_diff`.  In the source the
defaults are `positionals=UNCHANGED, flags=UNCHANGED, stdin=UNCHANGED,
extra_environ=None`. -/
def mkAlteredCall (base : Call V) (titl : String)
    (positionals flags stdin extra_environ : PyV V)
    (description : PyV V) (response : Option Response) : Call V :=
  let d0 : Diff V := []
  let d1 := update_diff d0 .stdin stdin
  let d2 := update_diff d1 .positionals positionals
  let d3 := update_diff d2 .flags flags
  let d4 := update_diff d3 .extraEnviron extra_environ
  Call.altered base { title := titl, description := description, response := response, diff := d4 }

/-- An `AlteredCall` built with every constructor argument left at its source
default: `positionals=UNCHANGED, flags=UNCHANGED, stdin=UNCHANGED,
extra_environ=None, description=None, response=None`. -/
def mkAlteredCallDefaults (base : Call V) (titl : String) : Call V :=
  mkAlteredCall base titl PyV.unchangedSentinel PyV.unchangedSentinel
    PyV.unchangedSentinel PyV.none PyV.none Option.none

/-- A chain of `n` default-constructed AlteredCalls over `base`, titled by level. -/
def defaultChain (base : Call V) (titles : Nat → String) : Nat → Call V
  | 0 => base
  | n + 1 => mkAlteredCallDefaults (defaultChain base titles n) (titles n)

/-- Embeds `Call.verify` (calls.py lines 46-49) with the invocation result
abstracted: `obs` is the Response returned by `self.invoke(application)`.
Python's `self.response != response` is true when `self.response` is `None`
(no Response instance equals `None`) or when the two Responses differ
structurally; the raise is modelled as `some CallVerifyError`. -/
def verify (c : Call V) (obs : Response) : Option CallVerifyError :=
  if c.response = some obs then Option.none else some {}

/-- Embeds `Call.conclude` (calls.py lines 51-53) with the invocation result
abstracted: `if self.response is None: self.response = self.invoke(application)`. -/
def conclude (c : Call V) (obs : Response) : Call V :=
  match c.response with
  | Option.none => c.setResponse (some obs)
  | some _ => c

end Call

/-- A value occurring in a `to_dict` result: the title or description strings
are Python values too, but the code distinguishes only the title (always a
string), field values (arbitrary Python values from the slots or the diff)
and the nested response dict. -/
inductive DVal (V : Type) where
  | str (s : String)
  | pv (v : PyV V)
  | resp (r : Response)
deriving DecidableEq, Repr

namespace Call

variable {V : Type} [DecidableEq V]

/-- Embeds `Call.to_dict` (calls.py lines 19-36, the version `FirstCall`
inherits) and `AlteredCall.to_dict` (lines 166-176).  The inherited version
starts from `{title}` and adds stdin, positionals and flags when each
`is not None`, then the response when set; the `AlteredCall` override starts
from `{title}`, merges in the whole diff, then adds description and response
when set.  A Python dict is rendered as the association list of its entries
in insertion order. -/
def to_dict : Call V → List (String × DVal V)
  | .first s =>
    [("title", DVal.str s.title)]
      ++ (if s.stdin = PyV.none then [] else [("stdin", DVal.pv s.stdin)])
      ++ (if s.positionals = PyV.none then [] else [("positionals", DVal.pv s.positionals)])
      ++ (if s.flags = PyV.none then [] else [("flags", DVal.pv s.flags)])
      ++ (match s.response with
          | Option.none => []
          | some r => [("response", DVal.resp r)])
  | .altered _ s =>
    [("title", DVal.str s.title)]
      ++ s.diff.map (fun p => (Field.key p.1, DVal.pv p.2))
      ++ (if s.description = PyV.none then [] else [("description", DVal.pv s.description)])
      ++ (match s.response with
          | Option.none => []
          | some r => [("response", DVal.resp r)])

/-- The overlay of a Call: the `diff` dict for an `AlteredCall`; a `FirstCall`
has none. -/
def diffOf : Call V → Diff V
  | .first _ => []
  | .altered _ s => s.diff

end Call

/-- One mutation a client can perform on a Call after construction: assign a
field through its property setter, `del` a field through its deleter, or run
`conclude`.  (`verify`, `invoke` and `to_dict` do not mutate the Call.) -/
inductive CallOp (V : Type) where
  | set (f : Field) (v : PyV V)
  | del (f : Field)
  | concludeWith (obs : Response)

/-- Runs one `CallOp`.  A failing `del` (Python `KeyError` / `AttributeError`)
propagates before any mutation, so the Call is left unchanged. -/
def applyCallOp {V : Type} [DecidableEq V] (c : Call V) : CallOp V → Call V
  | .set f v => c.setField f v
  | .del f => (c.delField f).getD c
  | .concludeWith obs => c.conclude obs

/-- Runs a sequence of `CallOp`s left to right. -/
def applyCallOps {V : Type} [DecidableEq V] (c : Call V) (ops : List (CallOp V)) : Call V :=
  ops.foldl applyCallOp c

/-- The overlay-cleanliness invariant of claim C2: no diff entry holds the
`UNCHANGED` sentinel. -/
def DiffClean {V : Type} (d : Diff V) : Prop :=
  ∀ p ∈ d, p.2 ≠ PyV.unchangedSentinel

/-! Runner (src/bddcli/runners.py). -/

/-- The external application descriptor: per the spec it must expose a `name`
and an `address`. -/
structure Application where
  name : String
  address : String
deriving DecidableEq, Repr

/-- The observable result of the spawned process, as `subprocess.run` reports
it: exit status plus captured stdout and stderr text. -/
structure CompletedProcess where
  returncode : Int
  stdout : String
  stderr : String
deriving DecidableEq, Repr

namespace SubprocessRunner

/-- Embeds the `bootstrapper` property (runners.py lines 19-26): the helper
executable name joined onto `$VIRTUAL_ENV/bin` when that variable is set,
else onto `/usr/local/bin`. -/
def bootstrapper (virtualEnv : Option String) : String :=
  let bindir := match virtualEnv with
    | some ve => ve ++ "/bin"
    | Option.none => "/usr/local/bin"
  bindir ++ "/" ++ "bddcli-bootstrapper"

/-- Python truthiness of the `flags` / `positionals` arguments in
`if flags:` / `if positionals:`: `None` and the empty list are falsy. -/
def truthy (x : Option (List String)) : Bool :=
  match x with
  | some (_ :: _) => true
  | _ => false

/-- Embeds the `command` construction of `SubprocessRunner.run` (runners.py
lines 34-44): bootstrapper, application name, application address, then the
flags when truthy, then the positionals when truthy. -/
def buildCommand (boot : String) (app : Application)
    (flags positionals : Option (List String)) : List String :=
  let command := [boot, app.name, app.address]
  let command := if truthy flags then command ++ flags.getD [] else command
  if truthy positionals then command ++ positionals.getD [] else command

/-- Embeds `SubprocessRunner.run` (runners.py lines 32-56).  The operating
system is abstracted as `exec`, mapping the joined command line, the stdin
text, the environment override and the working-directory override to the
completed process; `run` wraps its fields verbatim into a `Response`. -/
def run (exec : String → Option String → Option (List (String × String)) → Option String → CompletedProcess)
    (virtualEnv : Option String) (app : Application)
    (positionals flags : Option (List String)) (stdin : Option String)
    (environ : Option (List (String × String))) (working_directory : Option String) : Response :=
  let command := buildCommand (bootstrapper virtualEnv) app flags positionals
  let result := exec (String.intercalate " " command) stdin environ working_directory
  Response.mk result.returncode result.stdout result.stderr

end SubprocessRunner

/-! Dictionary lemmas. -/

section DictLemmas

variable {V : Type} [DecidableEq V]

theorem dictGet_dictPop_self (d : Diff V) (k : Field) :
    dictGet (dictPop d k) k = Option.none := by
  induction d with
  | nil => rfl
  | cons p d ih =>
    by_cases h : p.1 = k
    · simpa [dictPop, h] using ih
    · simp [dictPop, dictGet, h, ih]

theorem dictGet_dictPop_other (d : Diff V) (k k' : Field) (h : ¬ k' = k) :
    dictGet (dictPop d k) k' = dictGet d k' := by
  induction d with
  | nil => rfl
  | cons p d ih =>
    by_cases hp : p.1 = k
    · have hp' : ¬ p.1 = k' := by
        intro hc
        exact h (hc ▸ hp)
      have h' : ¬ k = k' := fun hc => h hc.symm
      simp [dictPop, dictGet, hp, hp', h', ih]
    · by_cases hq : p.1 = k'
      · simp [dictPop, dictGet, hp, hq, h]
      · simp [dictPop, dictGet, hp, hq, ih]

theorem dictGet_dictSet_self (d : Diff V) (k : Field) (v : PyV V) :
    dictGet (dictSet d k v) k = some v := by
  induction d with
  | nil => simp [dictSet, dictGet]
  | cons p d ih =>
    by_cases h : p.1 = k
    · simp [dictSet, dictGet, h]
    · simp [dictSet, dictGet, h, ih]

theorem dictGet_dictSet_other (d : Diff V) (k k' : Field) (v : PyV V) (h : ¬ k' = k) :
    dictGet (dictSet d k v) k' = dictGet d k' := by
  induction d with
  | nil =>
    have h' : ¬ k = k' := fun hc => h hc.symm
    simp [dictSet, dictGet, h']
  | cons p d ih =>
    by_cases hp : p.1 = k
    · have h' : ¬ k = k' := fun hc => h hc.symm
      simp [dictSet, dictGet, hp, h']
    · by_cases hq : p.1 = k'
      · simp [dictSet, dictGet, hp, hq, h]
      · simp [dictSet, dictGet, hp, hq, ih]

theorem dictGet_update_diff_other (d : Diff V) (k k' : Field) (v : PyV V) (h : ¬ k' = k) :
    dictGet (update_diff d k v) k' = dictGet d k' := by
  unfold update_diff
  by_cases hv : v = PyV.unchangedSentinel
  · simp [hv, dictGet_dictPop_other d k k' h]
  · simp [hv, dictGet_dictSet_other d k k' v h]

theorem dictGet_update_diff_sentinel (d : Diff V) (k : Field) :
    dictGet (update_diff d k PyV.unchangedSentinel) k = Option.none := by
  simp [update_diff, dictGet_dictPop_self]

omit [DecidableEq V] in
theorem diffClean_nil : DiffClean ([] : Diff V) := by
  intro p hp
  simp at hp

theorem diffClean_dictPop {d : Diff V} (hd : DiffClean d) (k : Field) :
    DiffClean (dictPop d k) := by
  induction d with
  | nil => exact hd
  | cons p d ih =>
    have hp := hd p (by simp)
    have hd' : DiffClean d := fun q hq => hd q (by simp [hq])
    by_cases h : p.1 = k
    · simpa [dictPop, h] using ih hd'
    · intro q hq
      simp [dictPop, h] at hq
      rcases hq with hq | hq
      · exact hq ▸ hp
      · exact ih hd' q hq

theorem diffClean_dictSet {d : Diff V} (hd : DiffClean d) (k : Field) {v : PyV V}
    (hv : v ≠ PyV.unchangedSentinel) : DiffClean (dictSet d k v) := by
  induction d with
  | nil =>
    intro q hq
    simp [dictSet] at hq
    exact hq ▸ hv
  | cons p d ih =>
    have hp := hd p (by simp)
    have hd' : DiffClean d := fun q hq => hd q (by simp [hq])
    by_cases h : p.1 = k
    · intro q hq
      simp [dictSet, h] at hq
      rcases hq with hq | hq
      · exact hq ▸ hv
      · exact hd' q hq
    · intro q hq
      simp [dictSet, h] at hq
      rcases hq with hq | hq
      · exact hq ▸ hp
      · exact ih hd' q hq

theorem diffClean_update_diff {d : Diff V} (hd : DiffClean d) (k : Field) (v : PyV V) :
    DiffClean (update_diff d k v) := by
  unfold update_diff
  by_cases hv : v = PyV.unchangedSentinel
  · simpa [hv] using diffClean_dictPop hd k
  · simpa [hv] using diffClean_dictSet hd k hv

theorem diffClean_dictDel {d d' : Diff V} {k : Field} (hdel : dictDel d k = some d')
    (hd : DiffClean d) : DiffClean d' := by
  unfold dictDel at hdel
  by_cases h : (dictGet d k).isSome
  · simp [h] at hdel
    exact hdel ▸ diffClean_dictPop hd k
  · simp [h] at hdel

end DictLemmas

/-! Call-level lemmas. -/

section CallLemmas

variable {V : Type} [DecidableEq V]

theorem response_setField (c : Call V) (f : Field) (v : PyV V) :
    (c.setField f v).response = c.response := by
  cases c <;> cases f <;> rfl

theorem response_setResponse (c : Call V) (r : Option Response) :
    (c.setResponse r).response = r := by
  cases c <;> rfl

theorem response_delField {c c' : Call V} {f : Field} (h : c.delField f = some c') :
    c'.response = c.response := by
  cases c with
  | first s => simp [Call.delField] at h
  | altered b s =>
    simp [Call.delField] at h
    obtain ⟨d, _, hd⟩ := h
    rw [← hd]
    rfl

theorem response_conclude_of_some {c : Call V} {r : Response} (h : c.response = some r)
    (obs : Response) : (c.conclude obs).response = some r := by
  unfold Call.conclude
  rw [h]
  exact h

theorem response_conclude_of_none {c : Call V} (h : c.response = Option.none)
    (obs : Response) : (c.conclude obs).response = some obs := by
  unfold Call.conclude
  rw [h]
  exact response_setResponse c (some obs)

theorem response_applyCallOp_of_some {c : Call V} {r : Response} (h : c.response = some r)
    (op : CallOp V) : (applyCallOp c op).response = some r := by
  cases op with
  | set f v => rw [applyCallOp, response_setField, h]
  | del f =>
    cases hdel : c.delField f with
    | none => simpa [applyCallOp, hdel] using h
    | some c' =>
      simpa [applyCallOp, hdel] using (response_delField hdel).trans h
  | concludeWith obs => exact response_conclude_of_some h obs

theorem response_applyCallOps_of_some {c : Call V} {r : Response} (h : c.response = some r)
    (ops : List (CallOp V)) : (applyCallOps c ops).response = some r := by
  induction ops generalizing c with
  | nil => exact h
  | cons op ops ih =>
    exact ih (response_applyCallOp_of_some h op)

theorem diffOf_setResponse (c : Call V) (r : Option Response) :
    (c.setResponse r).diffOf = c.diffOf := by
  cases c <;> rfl

theorem diffClean_applyCallOp {c : Call V} (h : DiffClean c.diffOf) (op : CallOp V) :
    DiffClean (applyCallOp c op).diffOf := by
  cases op with
  | set f v =>
    cases c with
    | first s => exact h
    | altered b s => exact diffClean_update_diff h f v
  | del f =>
    cases c with
    | first s => simpa [applyCallOp, Call.delField] using h
    | altered b s =>
      cases hdel : dictDel s.diff f with
      | none => simpa [applyCallOp, Call.delField, hdel] using h
      | some d =>
        simpa [applyCallOp, Call.delField, hdel, Call.diffOf] using diffClean_dictDel hdel h
  | concludeWith obs =>
    show DiffClean (Call.conclude c obs).diffOf
    unfold Call.conclude
    cases hr : c.response with
    | none => simpa [diffOf_setResponse] using h
    | some r => exact h

theorem diffClean_applyCallOps {c : Call V} (h : DiffClean c.diffOf) (ops : List (CallOp V)) :
    DiffClean (applyCallOps c ops).diffOf := by
  induction ops generalizing c with
  | nil => exact h
  | cons op ops ih =>
    exact ih (diffClean_applyCallOp h op)

theorem diffClean_mkAlteredCall (base : Call V) (titl : String)
    (positionals flags stdin extra_environ description : PyV V) (response : Option Response) :
    DiffClean (Call.mkAlteredCall base titl positionals flags stdin extra_environ
      description response).diffOf := by
  refine diffClean_update_diff (diffClean_update_diff (diffClean_update_diff
    (diffClean_update_diff ?_ Field.stdin stdin) Field.positionals positionals)
    Field.flags flags) Field.extraEnviron extra_environ
  exact diffClean_nil

end CallLemmas

/-! Inheritance through default construction. -/

section DefaultConstruction

variable {V : Type} [DecidableEq V]

theorem getField_defaults_stdin (b : Call V) (t : String) :
    (Call.mkAlteredCallDefaults b t).getField Field.stdin = b.getField Field.stdin := rfl

theorem getField_defaults_positionals (b : Call V) (t : String) :
    (Call.mkAlteredCallDefaults b t).getField Field.positionals
      = b.getField Field.positionals := rfl

theorem getField_defaults_flags (b : Call V) (t : String) :
    (Call.mkAlteredCallDefaults b t).getField Field.flags = b.getField Field.flags := rfl

theorem getField_defaults_extraEnviron (b : Call V) (t : String) :
    (Call.mkAlteredCallDefaults b t).getField Field.extraEnviron = PyV.none := rfl

end DefaultConstruction

/-! Concrete objects used by counterexamples and witnesses. -/

/-- A concrete expected Response. -/
def exResp : Response := ⟨0, "out", "err"⟩

/-- A concrete FirstCall whose `extra_environ` is a non-`None` value and whose
response is unset. -/
def exBase : Call Unit :=
  Call.mkFirstCall "base" PyV.none PyV.none PyV.none (PyV.val ()) PyV.none Option.none

/-- A concrete FirstCall whose expected response is already set. -/
def exSet : Call Unit :=
  Call.mkFirstCall "set" PyV.none PyV.none PyV.none PyV.none PyV.none (some exResp)

/-- A concrete AlteredCall state with an empty overlay. -/
def exAD : AlteredData Unit := ⟨"alt", PyV.none, Option.none, []⟩

/-- A concrete FirstCall state with everything unset. -/
def exFD : FirstData Unit := ⟨"f", PyV.none, Option.none, PyV.none, PyV.none, PyV.none, PyV.none⟩

/-- A concrete `to_dict` value used by the C6 witness. -/
def exDV : DVal Unit := DVal.str "f"

/-- A concrete `to_dict` value used by the C7 witness. -/
def exDV2 : DVal Unit := DVal.str "alt"

/-- A concrete process oracle with a non-zero exit code and non-empty stderr. -/
def exExec : String → Option String → Option (List (String × String)) → Option String →
    CompletedProcess :=
  fun _ _ _ _ => ⟨1, "boom", "fatal"⟩

/-! Claims. -/

/-- Claim C1, counterexample: an `AlteredCall` constructed from `exBase` with
every constructor argument left at its default does NOT resolve all four
fields to the base's values — the source default `extra_environ=None` stores
`None` into the overlay, so the resolved `extra_environ` is `None` while the
base's is a non-`None` value. -/
theorem claim1_counterexample :
    ¬ ((Call.mkAlteredCallDefaults exBase "alt").getField Field.stdin
          = exBase.getField Field.stdin
       ∧ (Call.mkAlteredCallDefaults exBase "alt").getField Field.positionals
          = exBase.getField Field.positionals
       ∧ (Call.mkAlteredCallDefaults exBase "alt").getField Field.flags
          = exBase.getField Field.flags
       ∧ (Call.mkAlteredCallDefaults exBase "alt").getField Field.extraEnviron
          = exBase.getField Field.extraEnviron) := by
  decide

/-- Claim C1, amended: for every AlteredCall chain of arbitrary positive depth
built over a base Call `B` with all construction arguments left at their
defaults, the resolved stdin, positionals and flags equal `B`'s resolved
values; the resolved `extra_environ`, however, is `None`, because the
constructor's default for `extra_environ` is `None` rather than the
`UNCHANGED` sentinel and is therefore stored in the overlay. -/
theorem claim1_amended (V : Type) [DecidableEq V] (base : Call V) (titles : Nat → String)
    (n : Nat) :
    (Call.defaultChain base titles (n + 1)).getField Field.stdin = base.getField Field.stdin
    ∧ (Call.defaultChain base titles (n + 1)).getField Field.positionals
        = base.getField Field.positionals
    ∧ (Call.defaultChain base titles (n + 1)).getField Field.flags
        = base.getField Field.flags
    ∧ (Call.defaultChain base titles (n + 1)).getField Field.extraEnviron = PyV.none := by
  induction n with
  | zero => exact ⟨rfl, rfl, rfl, rfl⟩
  | succ m ih =>
    refine ⟨?_, ?_, ?_, rfl⟩
    · exact (getField_defaults_stdin (Call.defaultChain base titles (m + 1))
        (titles (m + 1))).trans ih.1
    · exact (getField_defaults_positionals (Call.defaultChain base titles (m + 1))
        (titles (m + 1))).trans ih.2.1
    · exact (getField_defaults_flags (Call.defaultChain base titles (m + 1))
        (titles (m + 1))).trans ih.2.2.1

/-- Claim C1, witness for the amended theorem at a concrete chain. -/
theorem claim1_amended_witness :
    (Call.defaultChain exBase (fun _ => "t") 1).getField Field.stdin
      = exBase.getField Field.stdin :=
  (claim1_amended Unit exBase (fun _ => "t") 0).1

/-- Claim C2: an AlteredCall's overlay never stores the `UNCHANGED` sentinel —
not after construction with any arguments followed by any sequence of field
assignments, deletions and `conclude` calls; and passing the sentinel as a
field's initial constructor argument leaves that field out of the overlay. -/
theorem claim2_overlay_never_sentinel (V : Type) [DecidableEq V] (base : Call V)
    (titl : String) (p fl st ee dsc : PyV V) (r : Option Response) (ops : List (CallOp V)) :
    DiffClean (applyCallOps (Call.mkAlteredCall base titl p fl st ee dsc r) ops).diffOf
    ∧ dictGet (Call.mkAlteredCall base titl p fl PyV.unchangedSentinel ee dsc r).diffOf
        Field.stdin = Option.none
    ∧ dictGet (Call.mkAlteredCall base titl PyV.unchangedSentinel fl st ee dsc r).diffOf
        Field.positionals = Option.none
    ∧ dictGet (Call.mkAlteredCall base titl p PyV.unchangedSentinel st ee dsc r).diffOf
        Field.flags = Option.none
    ∧ dictGet (Call.mkAlteredCall base titl p fl st PyV.unchangedSentinel dsc r).diffOf
        Field.extraEnviron = Option.none := by
  refine ⟨diffClean_applyCallOps (diffClean_mkAlteredCall base titl p fl st ee dsc r) ops,
    ?_, ?_, ?_, ?_⟩
  · show dictGet (update_diff (update_diff (update_diff (update_diff []
        Field.stdin PyV.unchangedSentinel) Field.positionals p) Field.flags fl)
        Field.extraEnviron ee) Field.stdin = Option.none
    rw [dictGet_update_diff_other _ _ _ _ (by decide),
      dictGet_update_diff_other _ _ _ _ (by decide),
      dictGet_update_diff_other _ _ _ _ (by decide),
      dictGet_update_diff_sentinel]
  · show dictGet (update_diff (update_diff (update_diff (update_diff []
        Field.stdin st) Field.positionals PyV.unchangedSentinel) Field.flags fl)
        Field.extraEnviron ee) Field.positionals = Option.none
    rw [dictGet_update_diff_other _ _ _ _ (by decide),
      dictGet_update_diff_other _ _ _ _ (by decide),
      dictGet_update_diff_sentinel]
  · show dictGet (update_diff (update_diff (update_diff (update_diff []
        Field.stdin st) Field.positionals p) Field.flags PyV.unchangedSentinel)
        Field.extraEnviron ee) Field.flags = Option.none
    rw [dictGet_update_diff_other _ _ _ _ (by decide),
      dictGet_update_diff_sentinel]
  · exact dictGet_update_diff_sentinel _ _

/-- Claim C2, witness at a concrete construction and operation sequence. -/
theorem claim2_witness :
    DiffClean (applyCallOps
      (Call.mkAlteredCall exBase "alt" PyV.none PyV.none PyV.none PyV.none PyV.none
        Option.none)
      [CallOp.set Field.stdin (PyV.val ()), CallOp.concludeWith exResp]).diffOf :=
  (claim2_overlay_never_sentinel Unit exBase "alt" PyV.none PyV.none PyV.none PyV.none
    PyV.none Option.none
    [CallOp.set Field.stdin (PyV.val ()), CallOp.concludeWith exResp]).1

/-- Claim C3: for every AlteredCall over base `B` and every field, setting the
field to any value and then setting it to the `UNCHANGED` sentinel makes a
subsequent read return `B`'s current value of the field. -/
theorem claim3_set_then_sentinel_restores (V : Type) [DecidableEq V] (base : Call V)
    (s : AlteredData V) (f : Field) (v : PyV V) :
    (((Call.altered base s).setField f v).setField f PyV.unchangedSentinel).getField f
      = base.getField f := by
  show ((dictGet (update_diff (update_diff s.diff f v) f PyV.unchangedSentinel) f).getD
    (base.getField f)) = base.getField f
  rw [dictGet_update_diff_sentinel]
  rfl

/-- Claim C3, witness at a concrete AlteredCall, field and value. -/
theorem claim3_witness :
    (((Call.altered exBase exAD).setField Field.stdin (PyV.val ())).setField Field.stdin
      PyV.unchangedSentinel).getField Field.stdin = exBase.getField Field.stdin :=
  claim3_set_then_sentinel_restores Unit exBase exAD Field.stdin (PyV.val ())

/-- Claim C4: for every Call whose expected Response is set to `e`, `verify`
raises the verification error exactly when the observed Response differs from
`e` in at least one of exit_code, stdout, stderr, and returns without error
exactly when all three fields agree. -/
theorem claim4_verify_iff (V : Type) [DecidableEq V] (c : Call V) (e obs : Response)
    (h : c.response = some e) :
    (c.verify obs = some CallVerifyError.mk
      ↔ (¬ e.exit_code = obs.exit_code ∨ ¬ e.stdout = obs.stdout ∨ ¬ e.stderr = obs.stderr))
    ∧ (c.verify obs = Option.none
      ↔ (e.exit_code = obs.exit_code ∧ e.stdout = obs.stdout ∧ e.stderr = obs.stderr)) := by
  unfold Call.verify
  rw [h]
  obtain ⟨e1, e2, e3⟩ := e
  obtain ⟨o1, o2, o3⟩ := obs
  by_cases h1 : e1 = o1 <;> by_cases h2 : e2 = o2 <;> by_cases h3 : e3 = o3 <;>
    simp [h1, h2, h3, Response.mk.injEq]

/-- Claim C4, witness: verifying a stored Response against an identical
observed Response returns without error. -/
theorem claim4_witness : (Call.setResponse exBase (some exResp)).verify exResp = Option.none :=
  (claim4_verify_iff Unit (Call.setResponse exBase (some exResp)) exResp exResp rfl).2.mpr
    ⟨rfl, rfl, rfl⟩

/-- Claim C5: an expected Response, once set, survives every sequence of field
assignments, deletions and `conclude` calls; `conclude` on a Call with no
expected Response records the observed Response; and `conclude` is idempotent. -/
theorem claim5_conclude_protocol (V : Type) [DecidableEq V] (c : Call V)
    (r obs o1 o2 : Response) (ops : List (CallOp V)) :
    (c.response = some r → (applyCallOps c ops).response = some r)
    ∧ (c.response = Option.none → (c.conclude obs).response = some obs)
    ∧ (c.conclude o1).conclude o2 = c.conclude o1 := by
  refine ⟨fun h => response_applyCallOps_of_some h ops,
    fun h => response_conclude_of_none h obs, ?_⟩
  cases hr : c.response with
  | some r' =>
    have h1 : c.conclude o1 = c := by
      unfold Call.conclude
      rw [hr]
    rw [h1]
    unfold Call.conclude
    rw [hr]
  | none =>
    have h1 : c.conclude o1 = c.setResponse (some o1) := by
      unfold Call.conclude
      rw [hr]
    rw [h1]
    unfold Call.conclude
    rw [response_setResponse c (some o1)]

/-- Claim C5, witness: a stored expected Response survives a field assignment
followed by a `conclude` with a different observed Response. -/
theorem claim5_witness :
    (applyCallOps exSet
      [CallOp.set Field.stdin (PyV.val ()), CallOp.concludeWith ⟨1, "a", "b"⟩]).response
      = some exResp :=
  (claim5_conclude_protocol Unit exSet exResp exResp exResp exResp
    [CallOp.set Field.stdin (PyV.val ()), CallOp.concludeWith ⟨1, "a", "b"⟩]).1 rfl

/-- Claim C6: a FirstCall's `to_dict` contains exactly the title, each of
stdin, positionals and flags that is not `None`, and the response when set —
and nothing else (in particular, never `extra_environ` or `description`). -/
theorem claim6_firstCall_to_dict (V : Type) [DecidableEq V] (s : FirstData V)
    (k : String) (dv : DVal V) :
    ((k, dv) ∈ Call.to_dict (Call.first s)
      ↔ (k = "title" ∧ dv = DVal.str s.title)
        ∨ (¬ s.stdin = PyV.none ∧ k = "stdin" ∧ dv = DVal.pv s.stdin)
        ∨ (¬ s.positionals = PyV.none ∧ k = "positionals" ∧ dv = DVal.pv s.positionals)
        ∨ (¬ s.flags = PyV.none ∧ k = "flags" ∧ dv = DVal.pv s.flags)
        ∨ (∃ r, s.response = some r ∧ k = "response" ∧ dv = DVal.resp r)) := by
  unfold Call.to_dict
  rcases hr : s.response with _ | r <;>
    by_cases h1 : s.stdin = PyV.none <;>
    by_cases h2 : s.positionals = PyV.none <;>
    by_cases h3 : s.flags = PyV.none <;>
    simp [h1, h2, h3, hr, Prod.ext_iff]

/-- Claim C6, witness at a concrete FirstCall and entry. -/
theorem claim6_witness :
    (("title", exDV) ∈ Call.to_dict (Call.first exFD)
      ↔ ("title" = "title" ∧ exDV = DVal.str exFD.title)
        ∨ (¬ exFD.stdin = PyV.none ∧ "title" = "stdin" ∧ exDV = DVal.pv exFD.stdin)
        ∨ (¬ exFD.positionals = PyV.none ∧ "title" = "positionals"
            ∧ exDV = DVal.pv exFD.positionals)
        ∨ (¬ exFD.flags = PyV.none ∧ "title" = "flags" ∧ exDV = DVal.pv exFD.flags)
        ∨ (∃ r, exFD.response = some r ∧ "title" = "response"
            ∧ exDV = DVal.resp r)) :=
  claim6_firstCall_to_dict Unit exFD "title" exDV

/-- Claim C7: an AlteredCall's `to_dict` does not depend on the base Call at
all (so it never re-serializes inherited values), and its entries are exactly
the title, the overlay contents, the description when set and the response
when set. -/
theorem claim7_alteredCall_to_dict (V : Type) [DecidableEq V] (b b2 : Call V)
    (s : AlteredData V) (k : String) (dv : DVal V) :
    Call.to_dict (Call.altered b s) = Call.to_dict (Call.altered b2 s)
    ∧ ((k, dv) ∈ Call.to_dict (Call.altered b s)
      ↔ (k = "title" ∧ dv = DVal.str s.title)
        ∨ (∃ p ∈ s.diff, k = Field.key p.1 ∧ dv = DVal.pv p.2)
        ∨ (¬ s.description = PyV.none ∧ k = "description" ∧ dv = DVal.pv s.description)
        ∨ (∃ r, s.response = some r ∧ k = "response" ∧ dv = DVal.resp r)) := by
  refine ⟨rfl, ?_⟩
  unfold Call.to_dict
  rcases hr : s.response with _ | r <;>
    by_cases h1 : s.description = PyV.none <;>
    simp [h1, hr, Prod.ext_iff, eq_comm]

/-- Claim C7, witness at a concrete AlteredCall and entry. -/
theorem claim7_witness :
    Call.to_dict (Call.altered exBase exAD) = Call.to_dict (Call.altered exSet exAD)
    ∧ (("title", exDV2) ∈ Call.to_dict (Call.altered exBase exAD)
      ↔ ("title" = "title" ∧ exDV2 = DVal.str exAD.title)
        ∨ (∃ p ∈ exAD.diff, "title" = Field.key p.1 ∧ exDV2 = DVal.pv p.2)
        ∨ (¬ exAD.description = PyV.none ∧ "title" = "description"
            ∧ exDV2 = DVal.pv exAD.description)
        ∨ (∃ r, exAD.response = some r ∧ "title" = "response"
            ∧ exDV2 = DVal.resp r)) :=
  claim7_alteredCall_to_dict Unit exBase exSet exAD "title" exDV2

/-- Claim C8: the runner's command is the bootstrapper, the application name,
the application address, then the flags when non-empty, then the positionals
when non-empty, in that order (with falsy `None`/empty sequences dropped);
and `run` always wraps the process's exit code, stdout and stderr verbatim
into a Response, whatever they are — no exit code or stderr is an error. -/
theorem claim8_runner (exec : String → Option String → Option (List (String × String)) →
      Option String → CompletedProcess)
    (ve : Option String) (app : Application) (fs ps : List String)
    (flags positionals : Option (List String)) (stdin : Option String)
    (environ : Option (List (String × String))) (wd : Option String)
    (hf : ¬ fs = []) (hp : ¬ ps = []) :
    SubprocessRunner.buildCommand (SubprocessRunner.bootstrapper ve) app (some fs) (some ps)
      = [SubprocessRunner.bootstrapper ve, app.name, app.address] ++ fs ++ ps
    ∧ SubprocessRunner.buildCommand (SubprocessRunner.bootstrapper ve) app Option.none
        (some ps)
      = [SubprocessRunner.bootstrapper ve, app.name, app.address] ++ ps
    ∧ SubprocessRunner.buildCommand (SubprocessRunner.bootstrapper ve) app (some [])
        (some ps)
      = [SubprocessRunner.bootstrapper ve, app.name, app.address] ++ ps
    ∧ SubprocessRunner.buildCommand (SubprocessRunner.bootstrapper ve) app (some fs)
        Option.none
      = [SubprocessRunner.bootstrapper ve, app.name, app.address] ++ fs
    ∧ SubprocessRunner.buildCommand (SubprocessRunner.bootstrapper ve) app (some fs)
        (some [])
      = [SubprocessRunner.bootstrapper ve, app.name, app.address] ++ fs
    ∧ SubprocessRunner.buildCommand (SubprocessRunner.bootstrapper ve) app Option.none
        Option.none
      = [SubprocessRunner.bootstrapper ve, app.name, app.address]
    ∧ SubprocessRunner.run exec ve app positionals flags stdin environ wd
      = Response.mk
          (exec (String.intercalate " " (SubprocessRunner.buildCommand
            (SubprocessRunner.bootstrapper ve) app flags positionals)) stdin environ
            wd).returncode
          (exec (String.intercalate " " (SubprocessRunner.buildCommand
            (SubprocessRunner.bootstrapper ve) app flags positionals)) stdin environ
            wd).stdout
          (exec (String.intercalate " " (SubprocessRunner.buildCommand
            (SubprocessRunner.bootstrapper ve) app flags positionals)) stdin environ
            wd).stderr := by
  cases fs with
  | nil => exact absurd rfl hf
  | cons f0 ft =>
    cases ps with
    | nil => exact absurd rfl hp
    | cons p0 pt =>
      refine ⟨?_, ?_, ?_, ?_, ?_, ?_, rfl⟩ <;>
        simp [SubprocessRunner.buildCommand, SubprocessRunner.truthy]

/-- Claim C8, witness: a concrete invocation with one flag and one positional,
against a process that exits 1 with non-empty stderr. -/
theorem claim8_witness :
    SubprocessRunner.buildCommand (SubprocessRunner.bootstrapper Option.none)
      ⟨"app", "addr"⟩ (some ["-v"]) (some ["x"])
      = [SubprocessRunner.bootstrapper Option.none, "app", "addr"] ++ ["-v"] ++ ["x"] :=
  (claim8_runner exExec Option.none ⟨"app", "addr"⟩ ["-v"] ["x"] (some ["-v"]) (some ["x"])
    (some "in") Option.none Option.none (by simp) (by simp)).1

/-- Claim C9: deleting an AlteredCall field whose key is not in the overlay
propagates the lookup failure (`KeyError`) instead of acting as a no-op. -/
theorem claim9_del_missing_fails (V : Type) [DecidableEq V] (base : Call V)
    (s : AlteredData V) (f : Field) (h : dictGet s.diff f = Option.none) :
    (Call.altered base s).delField f = Option.none := by
  simp [Call.delField, dictDel, h]

/-- Claim C9, witness: deleting `stdin` from an AlteredCall with an empty
overlay fails. -/
theorem claim9_witness : (Call.altered exBase exAD).delField Field.stdin = Option.none :=
  claim9_del_missing_fails Unit exBase exAD Field.stdin rfl

/-- Claim C10: for every Call with no stored expected Response, `verify`
always raises the verification error, whatever Response is observed. -/
theorem claim10_verify_none_raises (V : Type) [DecidableEq V] (c : Call V) (obs : Response)
    (h : c.response = Option.none) : c.verify obs = some CallVerifyError.mk := by
  unfold Call.verify
  rw [h]
  simp

/-- Claim C10, witness: a concrete Call with no expectation fails `verify`
even against a zero-exit observed Response. -/
theorem claim10_witness : exBase.verify exResp = some CallVerifyError.mk :=
  claim10_verify_none_raises Unit exBase exResp rfl

end Bddcli
